import Mathlib

/-!
Verification of the discuss USP wire-protocol client (`discuss/rpc.py`,
`discuss/client.py`).

The embedding models Python 2 byte strings as `List Nat` (each element one
byte) and the socket as an explicit byte stream, also a `List Nat`.  A
deterministic `recv` is assumed: `sock.recv(n)` delivers `min n remaining`
bytes, and zero bytes once the stream is exhausted.  Exceptions are modelled
with explicit error values: operations that mutate a block's buffer return
the new buffer together with `Option Err` (the buffer is returned unchanged
when the Python code raises before appending), and whole-input parsers
return `Except Err`.

Loops whose measure is not structural (the subblock fragmentation loop in
`USPBlock.send`, the reassembly loop in `USPBlock.receive`, and Python's
`str.replace` scans) are written with an explicit fuel argument that is
instantiated with a bound provably larger than the number of iterations, so
that every definition reduces in the kernel.
-/

set_option maxRecDepth 100000

namespace Discuss

/-- Exceptions raised by the code in `rpc.py`, one constructor per raise
site (plus `structError` for the exceptions `struct.pack`/`struct.unpack`
raise themselves).  `nameError` models the `raise USPBlock` line in
`put_string`: the class `USPError` it names is not defined anywhere in the
module (only `ProtocolError` is), so executing that line raises a Python
`NameError` instead of the intended invalid-input error. -/
inductive Err where
  /-- struct.error: a value outside the range of the format, or a short
  buffer passed to unpack (e.g. `unpack("!H", sock.recv(2))` when the
  stream has fewer than 2 bytes left). -/
  | structError
  /-- ProtocolError "Invalid data received from the client (block is too
  short)" from `read_data` / `read_string`. -/
  | blockTooShort
  /-- ProtocolError "Subblock size is too large" from `USPBlock.receive`. -/
  | subblockTooLarge
  /-- ProtocolError "Connection broken while transmitting a block" from
  `USPBlock.receive`. -/
  | connectionBroken
  /-- ProtocolError "Transport-level error" from `RPCClient.request`. -/
  | transportLevel
  /-- NameError: name 'USPError' is not defined (see above). -/
  | nameError
deriving DecidableEq

/-- A USP block: a 16-bit type tag and a byte buffer
(`USPBlock.__init__` in rpc.py). -/
structure USPBlock where
  block_type : Nat
  buffer : List Nat
deriving DecidableEq

/-- Big-endian bytes of a 16-bit value: what `pack("!H", x)` produces for
an in-range `x`. -/
def u16be (x : Nat) : List Nat := [x / 256, x % 256]

/-- pack("!H", x): two big-endian bytes, or struct.error when x is outside
0..65535. -/
def pack16 (x : Nat) : Except Err (List Nat) :=
  if x < 65536 then .ok (u16be x) else .error .structError

/-- `put_cardinal v`, i.e. `put_data("!H", v)`: `self.buffer += pack("!H", v)`.
When pack raises, the buffer is unchanged (the exception fires before the
append). -/
def put_cardinal (v : Nat) (buf : List Nat) : List Nat × Option Err :=
  if v < 65536 then (buf ++ u16be v, none) else (buf, some .structError)

/-- Python `s.replace("\r", "\r\0")` (carriage-return 13 becomes 13, 0). -/
def replace_cr_crnul : List Nat → List Nat
  | [] => []
  | c :: rest =>
    if c = 13 then 13 :: 0 :: replace_cr_crnul rest
    else c :: replace_cr_crnul rest

/-- Python `s.replace("\n", "\r\n")` (line-feed 10 becomes 13, 10). -/
def replace_lf_crlf : List Nat → List Nat
  | [] => []
  | c :: rest =>
    if c = 10 then 13 :: 10 :: replace_lf_crlf rest
    else c :: replace_lf_crlf rest

/-- Python `s.replace("\r\n", "\n")`: left-to-right, non-overlapping. -/
def replace_crlf_lf : List Nat → List Nat
  | [] => []
  | [c] => [c]
  | c1 :: c2 :: rest =>
    if c1 = 13 ∧ c2 = 10 then 10 :: replace_crlf_lf rest
    else c1 :: replace_crlf_lf (c2 :: rest)

/-- Python `s.replace("\r\0", "\r")`: left-to-right, non-overlapping. -/
def replace_crnul_cr : List Nat → List Nat
  | [] => []
  | [c] => [c]
  | c1 :: c2 :: rest =>
    if c1 = 13 ∧ c2 = 0 then 13 :: replace_crnul_cr rest
    else c1 :: replace_crnul_cr (c2 :: rest)

/-- The escaped form of a string as built inside `put_string`:
`s.replace("\r", "\r\0").replace("\n", "\r\n")`. -/
def encodeString (s : List Nat) : List Nat :=
  replace_lf_crlf (replace_cr_crnul s)

/-- The unescaping applied by `read_string` to the bytes it extracted:
`encoded.replace("\r\n", "\n").replace("\r\0", "\r")`. -/
def decodeString (e : List Nat) : List Nat :=
  replace_crnul_cr (replace_crlf_lf e)

/-- `USPBlock.put_string`: reject NULs (the raise names the undefined class
`USPError`, hence `Err.nameError`), escape, append the cardinal length of
the escaped bytes, append them, and pad with one NUL byte when the escaped
length is odd.  Returns the block's buffer after the call together with the
exception, if one was raised. -/
def put_string (s : List Nat) (buf : List Nat) : List Nat × Option Err :=
  if 0 ∈ s then (buf, some .nameError)
  else
    let encoded := encodeString s
    match put_cardinal encoded.length buf with
    | (buf1, some e) => (buf1, some e)
    | (buf1, none) =>
      if encoded.length % 2 = 1 then (buf1 ++ encoded ++ [0], none)
      else (buf1 ++ encoded, none)

/-- `read_cardinal`, i.e. `read_data("!H")`: take 2 bytes off the front of
the buffer and decode them big-endian; fewer than 2 remaining bytes is a
block-too-short protocol error. -/
def read_cardinal (buf : List Nat) : Except Err (Nat × List Nat) :=
  match buf with
  | b0 :: b1 :: rest => .ok (b0 * 256 + b1, rest)
  | _ => .error .blockTooShort

/-- `USPBlock.read_string`: read the cardinal length, check the remaining
buffer holds that many bytes, drop one extra pad byte when the length is
odd, and unescape. -/
def read_string (buf : List Nat) : Except Err (List Nat × List Nat) :=
  match read_cardinal buf with
  | .error e => .error e
  | .ok (size, rest) =>
    if rest.length < size then .error .blockTooShort
    else
      let skip := if size % 2 = 1 then size + 1 else size
      .ok (decodeString (rest.take size), rest.drop skip)

/-- Subblock header value from `USPBlock.send`:
`header_number = len(current) + 2`, OR'd with 0x8000 on the last subblock. -/
def subblockHeader (len : Nat) (last : Bool) : Nat :=
  if last then (len + 2) ||| 0x8000 else len + 2

/-- The fragmentation loop of `USPBlock.send`, as a list of
(payload chunk, last flag) pairs.  `fuel` bounds the number of iterations;
each iteration either consumes 508 payload bytes or is the final one, so
`buf.length + 1` iterations always suffice. -/
def sendChunksGo : Nat → List Nat → List (List Nat × Bool)
  | 0, _ => []
  | fuel + 1, unsent =>
    if unsent.length > 508 then
      (unsent.take 508, false) :: sendChunksGo fuel (unsent.drop 508)
    else
      [(unsent, true)]

/-- Subblocks emitted by `USPBlock.send` for a block with payload `buf`
(the loop runs at least once even for an empty payload: `first_pass`). -/
def sendChunks (buf : List Nat) : List (List Nat × Bool) :=
  sendChunksGo (buf.length + 1) buf

/-- Wire bytes of one subblock: its 16-bit header followed by its payload
chunk.  The header value is `chunk length + 2` (at most 510) possibly OR'd
with 0x8000, hence always below 65536, so `pack("!H", ...)` cannot fail
here. -/
def chunkWire (c : List Nat × Bool) : List Nat :=
  u16be (subblockHeader c.1.length c.2) ++ c.1

/-- Concatenated wire bytes of a list of subblocks (the successive
`sock.sendall(header + current)` calls). -/
def chunksWire : List (List Nat × Bool) → List Nat
  | [] => []
  | c :: cs => chunkWire c ++ chunksWire cs

/-- `USPBlock.send`: the full byte sequence written to the socket —
`pack("!H", block_type)` (which raises struct.error for an out-of-range
type, before anything is sent) followed by the subblocks. -/
def send (block_type : Nat) (buf : List Nat) : Except Err (List Nat) :=
  match pack16 block_type with
  | .error e => .error e
  | .ok header => .ok (header ++ chunksWire (sendChunks buf))

/-- Payload length of a subblock as computed by `USPBlock.receive`:
`size = (subheader & 0x0FFF) - 2`, a Python int, so possibly negative. -/
def subblockSize (subheader : Nat) : Int :=
  ((subheader &&& 0x0FFF : Nat) : Int) - 2

/-- The reassembly loop of `USPBlock.receive`.  One iteration reads a
2-byte subblock header (struct.error if the stream cannot supply 2 bytes),
checks the declared size against the 4096 accept limit, then reads exactly
`size` payload bytes — with the deterministic `recv`, the inner
`while len(buffer) < size` loop succeeds exactly when the stream still
holds `size` bytes and otherwise hits a zero-byte read, the
connection-broken error.  `fuel` bounds the iterations; each consumes at
least the 2 header bytes, so `stream.length + 1` always suffices and the
fuel-exhausted branch is unreachable from `receive`. -/
def recvLoopGo : Nat → List Nat → List Nat → Except Err (List Nat × List Nat)
  | 0, _, _ => .error .structError
  | fuel + 1, acc, stream =>
    match stream with
    | b0 :: b1 :: rest =>
      let subheader := b0 * 256 + b1
      let last : Bool := subheader &&& 0x8000 != 0
      let size := subblockSize subheader
      if size > 4096 then .error .subblockTooLarge
      else if (rest.length : Int) < size then .error .connectionBroken
      else
        let chunk := rest.take size.toNat
        let rest' := rest.drop size.toNat
        if last then .ok (acc ++ chunk, rest')
        else recvLoopGo fuel (acc ++ chunk) rest'
    | _ => .error .structError

/-- `USPBlock.receive`: read the 2-byte block type (struct.error on a
stream shorter than 2 bytes), then reassemble subblocks until the last
flag.  Returns the block type, the reassembled payload, and the unconsumed
remainder of the stream. -/
def receive (stream : List Nat) : Except Err (Nat × List Nat × List Nat) :=
  match stream with
  | b0 :: b1 :: rest =>
    match recvLoopGo (rest.length + 1) [] rest with
    | .error e => .error e
    | .ok (buf, rest') => .ok (b0 * 256 + b1, buf, rest')
  | _ => .error .structError

/-- Everything `RPCClient.request` leaves behind: the argument block after
the in-place `block.block_type += constants.PROC_BASE` mutation (which
survives the call whether it returns or raises), the bytes written to the
socket (empty when `pack` of the block type raised, which happens before
any byte is sent), and the returned reply or raised exception. -/
structure ReqOutcome where
  block : USPBlock
  sent : List Nat
  result : Except Err USPBlock

/-- `RPCClient.request`, parameterised by the two constants it reads from
the missing `constants` module (`PROC_BASE`, the procedure-call offset, and
`REPLY_TYPE`, the expected reply block type): offset the block type in
place, send the block, receive the reply from `replyStream`, and raise the
transport-level protocol error when the reply's type is not `REPLY_TYPE`. -/
def request (PROC_BASE REPLY_TYPE : Nat) (block : USPBlock)
    (replyStream : List Nat) : ReqOutcome :=
  let b : USPBlock := { block with block_type := block.block_type + PROC_BASE }
  match send b.block_type b.buffer with
  | .error e => ⟨b, [], .error e⟩
  | .ok wire =>
    match receive replyStream with
    | .error e => ⟨b, wire, .error e⟩
    | .ok (rt, rbuf, _) =>
      if rt ≠ REPLY_TYPE then ⟨b, wire, .error .transportLevel⟩
      else ⟨b, wire, .ok ⟨rt, rbuf⟩⟩

/-- The `for byte in authenticator: auth_block.put_cardinal(ord(byte))`
loop of `RPCClient.connect`: append each token byte as its own 2-byte
cardinal, stopping at the first exception. -/
def put_cardinal_list : List Nat → List Nat → List Nat × Option Err
  | [], buf => (buf, none)
  | b :: rest, buf =>
    match put_cardinal b buf with
    | (buf1, none) => put_cardinal_list rest buf1
    | (buf1, some e) => (buf1, some e)

/-- The authentication block built by `RPCClient.connect`, parameterised by
the ticket block type read from the missing `constants` module
(`KRB_TICKET`) and by the opaque authenticator bytes that
`_get_krb5_ap_req` returned (external credential source).  With `auth`
enabled the payload is the cardinal token length followed by one cardinal
per token byte; with it disabled, a single cardinal zero. -/
def connectAuthBlock (KRB_TICKET : Nat) (auth : Bool)
    (authenticator : List Nat) : USPBlock × Option Err :=
  if auth then
    match put_cardinal authenticator.length [] with
    | (buf1, some e) => (⟨KRB_TICKET, buf1⟩, some e)
    | (buf1, none) =>
      match put_cardinal_list authenticator buf1 with
      | (buf2, r) => (⟨KRB_TICKET, buf2⟩, r)
  else
    match put_cardinal 0 [] with
    | (buf1, r) => (⟨KRB_TICKET, buf1⟩, r)

/-- Kinds of exception an operation wrapped by `autoreconnects`
(client.py) can raise: `socket.timeout`, or anything else — malformed
data, a transport-level protocol mismatch, or a discuss domain error
code.  Only `socket.timeout` is caught by the decorator. -/
inductive ClientErr where
  | timeout
  | malformedData
  | protocolMismatch
  | domainError (code : Nat)
deriving DecidableEq

/-- The `autoreconnects` decorator of client.py.  `f i` is the outcome of
the i-th invocation of the wrapped operation and `connectRes` the outcome
of `self.rpc.connect()` (which replaces the socket and repeats the auth
handshake).  Returns the overall outcome together with the number of
`connect()` calls made and the number of invocations of the wrapped
operation: try the operation; on `socket.timeout` reconnect once and try
it exactly once more, letting whatever the second attempt raises
propagate; let every other exception propagate untouched. -/
def autoreconnects {α : Type} (f : Nat → Except ClientErr α)
    (connectRes : Except ClientErr Unit) : Except ClientErr α × Nat × Nat :=
  match f 0 with
  | .ok a => (.ok a, 0, 1)
  | .error e =>
    match e with
    | .timeout =>
      match connectRes with
      | .error ce => (.error ce, 1, 1)
      | .ok _ => (f 1, 1, 2)
    | e => (.error e, 0, 1)

/-! ## Arithmetic facts about subblock headers -/

set_option maxRecDepth 8000 in
lemma or32768_and4095 : ∀ n, n < 511 → (n ||| 32768) &&& 4095 = n := by decide

set_option maxRecDepth 8000 in
lemma or32768_and32768 : ∀ n, n < 511 → (n ||| 32768) &&& 32768 = 32768 := by decide

set_option maxRecDepth 8000 in
lemma small_and32768 : ∀ n, n < 511 → n &&& 32768 = 0 := by decide

set_option maxRecDepth 8000 in
lemma small_and4095 : ∀ n, n < 511 → n &&& 4095 = n := by decide

lemma subblockSize_le (h : Nat) : subblockSize h ≤ 4093 := by
  have := Nat.and_le_right (n := h) (m := 4095)
  unfold subblockSize
  omega

lemma subblockSize_last (len : Nat) (h : len ≤ 508) :
    subblockSize (subblockHeader len true) = (len : Int) := by
  unfold subblockSize subblockHeader
  rw [if_pos rfl]
  show ((((len + 2) ||| 32768) &&& 4095 : Nat) : Int) - 2 = (len : Int)
  rw [or32768_and4095 (len + 2) (by omega)]
  push_cast
  ring

lemma subblockHeader_last_flag (len : Nat) (h : len ≤ 508) :
    subblockHeader len true &&& 32768 = 32768 := by
  unfold subblockHeader
  rw [if_pos rfl]
  exact or32768_and32768 (len + 2) (by omega)

/-! ## Receive inverts send -/

lemma recvLoopGo_u16 (fuel : Nat) (acc : List Nat) (hv : Nat) (rest : List Nat) :
    recvLoopGo (fuel + 1) acc (u16be hv ++ rest) =
      if subblockSize hv > 4096 then .error .subblockTooLarge
      else if (rest.length : Int) < subblockSize hv then .error .connectionBroken
      else if hv &&& 0x8000 != 0 then
        .ok (acc ++ rest.take (subblockSize hv).toNat, rest.drop (subblockSize hv).toNat)
      else recvLoopGo fuel (acc ++ rest.take (subblockSize hv).toNat)
        (rest.drop (subblockSize hv).toNat) := by
  have hd : hv / 256 * 256 + hv % 256 = hv := by omega
  simp only [u16be, List.cons_append, List.nil_append, recvLoopGo, hd]

lemma take_508_length (buf : List Nat) (h : 508 < buf.length) :
    (buf.take 508).length = 508 := by
  simp [List.length_take]
  omega

lemma take_append_len (l₁ l₂ : List Nat) (n : Nat) (h : l₁.length = n) :
    (l₁ ++ l₂).take n = l₁ := by
  subst h; exact List.take_left l₁ l₂

lemma drop_append_len (l₁ l₂ : List Nat) (n : Nat) (h : l₁.length = n) :
    (l₁ ++ l₂).drop n = l₂ := by
  subst h; exact List.drop_left l₁ l₂

lemma recvLoopGo_chunksWire :
    ∀ fuelS buf acc fuelR, buf.length < fuelS →
      (sendChunksGo fuelS buf).length < fuelR →
      recvLoopGo fuelR acc (chunksWire (sendChunksGo fuelS buf)) =
        .ok (acc ++ buf, []) := by
  intro fuelS
  induction fuelS with
  | zero => intro buf acc fuelR h; omega
  | succ fuelS ih =>
    intro buf acc fuelR hlen hR
    by_cases hbig : buf.length > 508
    · rw [sendChunksGo, if_pos hbig] at hR ⊢
      simp only [List.length_cons] at hR
      match fuelR, hR with
      | fuelR + 1, hR =>
        rw [chunksWire, chunkWire]
        dsimp only
        have ht : (buf.take 508).length = 508 := take_508_length buf hbig
        rw [ht]
        have hhdr : subblockHeader 508 false = 510 := by rfl
        rw [hhdr, List.append_assoc, recvLoopGo_u16]
        have hsz : subblockSize 510 = 508 := by decide
        rw [hsz]
        rw [if_neg (by omega)]
        have hlen2 : (buf.take 508 ++ chunksWire (sendChunksGo fuelS (buf.drop 508))).length = 508 + (chunksWire (sendChunksGo fuelS (buf.drop 508))).length := by
          simp [ht]
        rw [if_neg (by rw [hlen2]; push_cast; omega)]
        have hflag : ((510 &&& 0x8000 != 0) : Bool) = false := by decide
        rw [hflag, if_neg (by simp)]
        have htoNat : (508 : Int).toNat = 508 := by decide
        rw [htoNat, take_append_len _ _ 508 ht, drop_append_len _ _ 508 ht]
        rw [ih (buf.drop 508) (acc ++ buf.take 508) fuelR
          (by simp [List.length_drop]; omega) (by omega)]
        rw [List.append_assoc, List.take_append_drop]
    · rw [sendChunksGo, if_neg hbig] at hR ⊢
      simp only [List.length_cons, List.length_nil] at hR
      match fuelR, hR with
      | fuelR + 1, hR =>
        rw [chunksWire, chunksWire, List.append_nil, chunkWire]
        dsimp only
        rw [recvLoopGo_u16]
        have hle : buf.length ≤ 508 := by omega
        have hsz := subblockSize_last buf.length hle
        rw [hsz]
        rw [if_neg (by omega)]
        rw [if_neg (by omega)]
        have hflag : ((subblockHeader buf.length true &&& 0x8000 != 0) : Bool) = true := by
          show ((subblockHeader buf.length true &&& 32768 != 0) : Bool) = true
          rw [subblockHeader_last_flag buf.length hle]
          rfl
        rw [hflag, if_pos rfl]
        rw [Int.toNat_natCast, List.take_length, List.drop_length]

lemma chunksWire_length_ge (cs : List (List Nat × Bool)) :
    cs.length ≤ (chunksWire cs).length := by
  induction cs with
  | nil => simp [chunksWire]
  | cons c cs ih =>
    simp only [chunksWire, chunkWire, u16be, List.length_append, List.length_cons]
    simp at *
    omega

lemma receive_send (bt : Nat) (buf : List Nat) (w : List Nat)
    (h : send bt buf = .ok w) : receive w = .ok (bt, buf, []) := by
  unfold send pack16 at h
  by_cases hbt : bt < 65536
  · rw [if_pos hbt] at h
    simp only [Except.ok.injEq] at h
    subst h
    show receive (bt / 256 :: bt % 256 :: chunksWire (sendChunks buf)) = _
    rw [receive, sendChunks]
    rw [recvLoopGo_chunksWire (buf.length + 1) buf []
      ((chunksWire (sendChunksGo (buf.length + 1) buf)).length + 1) (by omega)
      (Nat.lt_succ_of_le (chunksWire_length_ge (sendChunksGo (buf.length + 1) buf)))]
    have : bt / 256 * 256 + bt % 256 = bt := by omega
    simp [this]
  · rw [if_neg hbt] at h
    exact absurd h (by simp)

/-- C1: for every 16-bit block type and every payload byte sequence
(including the empty one), feeding the byte stream produced by
`USPBlock.send` into `USPBlock.receive` reconstructs exactly the original
block type and payload, consuming the whole stream. -/
theorem send_receive_round_trip (bt : Nat) (buf w : List Nat)
    (h : send bt buf = .ok w) : receive w = .ok (bt, buf, []) :=
  receive_send bt buf w h

/-- Witness for C1 at block type 3 and payload [7, 8]. -/
theorem send_receive_round_trip_witness :
    send 3 [7, 8] = .ok [0, 3, 128, 4, 7, 8] ∧
    receive [0, 3, 128, 4, 7, 8] = .ok (3, [7, 8], []) :=
  ⟨rfl, send_receive_round_trip 3 [7, 8] [0, 3, 128, 4, 7, 8] rfl⟩

/-! ## Fragmentation shape (C3) -/

/-- Number of subblocks the send loop emits for a payload of n bytes. -/
def numChunks (n : Nat) : Nat := if n = 0 then 1 else (n + 507) / 508

lemma numChunks_pos (n : Nat) : 1 ≤ numChunks n := by
  unfold numChunks; split <;> omega

lemma numChunks_step (n : Nat) (h : 508 < n) :
    numChunks n = numChunks (n - 508) + 1 := by
  unfold numChunks; split <;> split <;> omega

lemma sendChunksGo_ne_nil (fuel : Nat) (buf : List Nat) (h : buf.length < fuel) :
    sendChunksGo fuel buf ≠ [] := by
  match fuel with
  | 0 => omega
  | fuel + 1 =>
    rw [sendChunksGo]
    split <;> simp

lemma sendChunksGo_length :
    ∀ fuel buf, buf.length < fuel →
      (sendChunksGo fuel buf).length = numChunks buf.length := by
  intro fuel
  induction fuel with
  | zero => intro buf h; omega
  | succ fuel ih =>
    intro buf h
    by_cases hbig : buf.length > 508
    · rw [sendChunksGo, if_pos hbig]
      rw [List.length_cons, ih (buf.drop 508) (by simp [List.length_drop]; omega)]
      rw [List.length_drop, numChunks_step buf.length hbig]
    · rw [sendChunksGo, if_neg hbig]
      unfold numChunks
      simp only [List.length_cons, List.length_nil]
      split <;> omega

lemma sendChunksGo_dropLast :
    ∀ fuel buf, buf.length < fuel →
      ∀ c ∈ (sendChunksGo fuel buf).dropLast, c.1.length = 508 ∧ c.2 = false := by
  intro fuel
  induction fuel with
  | zero => intro buf h; omega
  | succ fuel ih =>
    intro buf h c hc
    by_cases hbig : buf.length > 508
    · rw [sendChunksGo, if_pos hbig] at hc
      have hdrop : buf.length - 508 < fuel := by omega
      have hne := sendChunksGo_ne_nil fuel (buf.drop 508) (by simp [List.length_drop]; omega)
      match hrest : sendChunksGo fuel (buf.drop 508), hne with
      | r :: rs, _ =>
        rw [hrest] at hc
        simp only [List.dropLast, List.mem_cons] at hc
        rcases hc with hc | hc
        · subst hc
          exact ⟨take_508_length buf hbig, rfl⟩
        · have := ih (buf.drop 508) (by simp [List.length_drop]; omega) c
          rw [hrest] at this
          exact this hc
    · rw [sendChunksGo, if_neg hbig] at hc
      simp at hc

lemma sendChunksGo_getLast :
    ∀ fuel buf, buf.length < fuel →
      (sendChunksGo fuel buf).getLast? =
        some (buf.drop (508 * (numChunks buf.length - 1)), true) := by
  intro fuel
  induction fuel with
  | zero => intro buf h; omega
  | succ fuel ih =>
    intro buf h
    by_cases hbig : buf.length > 508
    · rw [sendChunksGo, if_pos hbig]
      have hne := sendChunksGo_ne_nil fuel (buf.drop 508) (by simp [List.length_drop]; omega)
      match hrest : sendChunksGo fuel (buf.drop 508), hne with
      | r :: rs, _ =>
        rw [List.getLast?_cons_cons]
        have := ih (buf.drop 508) (by simp [List.length_drop]; omega)
        rw [hrest] at this
        rw [this]
        rw [List.drop_drop, List.length_drop]
        have hpos := numChunks_pos (buf.length - 508)
        have hstep := numChunks_step buf.length hbig
        have harg : buf.drop (508 + 508 * (numChunks (buf.length - 508) - 1)) =
            buf.drop (508 * (numChunks buf.length - 1)) := by
          rw [show 508 + 508 * (numChunks (buf.length - 508) - 1) =
            508 * (numChunks buf.length - 1) by omega]
        rw [harg]
    · rw [sendChunksGo, if_neg hbig]
      have hone : numChunks buf.length = 1 := by unfold numChunks; split <;> omega
      rw [hone]
      simp

lemma sendChunksGo_one_flag :
    ∀ fuel buf, buf.length < fuel →
      ((sendChunksGo fuel buf).filter (fun c => c.2)).length = 1 := by
  intro fuel
  induction fuel with
  | zero => intro buf h; omega
  | succ fuel ih =>
    intro buf h
    by_cases hbig : buf.length > 508
    · rw [sendChunksGo, if_pos hbig]
      rw [List.filter_cons]
      dsimp only
      rw [if_neg Bool.false_ne_true]
      exact ih (buf.drop 508) (by simp [List.length_drop]; omega)
    · rw [sendChunksGo, if_neg hbig]
      simp

/-- C3: a payload longer than 508 bytes is fragmented into
ceil(n / 508) subblocks, every subblock but the last carries exactly 508
payload bytes with the last-flag clear, the final subblock carries the
remaining n - 508 * (ceil(n / 508) - 1) bytes with the last-flag set, and
exactly one subblock in the list carries the last-flag; an empty payload
yields exactly one subblock with no payload whose header word is 0x8002 —
last-flag set and declared length 2. -/
theorem send_fragmentation (buf : List Nat) (h : 508 < buf.length) :
    (sendChunks buf).length = (buf.length + 507) / 508 ∧
    (∀ c ∈ (sendChunks buf).dropLast, c.1.length = 508 ∧ c.2 = false) ∧
    ((sendChunks buf).getLast?).map (fun c => (c.1.length, c.2)) =
      some (buf.length - 508 * ((buf.length + 507) / 508 - 1), true) ∧
    ((sendChunks buf).filter (fun c => c.2)).length = 1 ∧
    sendChunks [] = [([], true)] ∧ subblockHeader 0 true = 0x8002 := by
  have hk : numChunks buf.length = (buf.length + 507) / 508 := by
    unfold numChunks; split <;> omega
  refine ⟨?_, ?_, ?_, ?_, by decide, by decide⟩
  · rw [sendChunks, sendChunksGo_length (buf.length + 1) buf (by omega), hk]
  · exact fun c hc => sendChunksGo_dropLast (buf.length + 1) buf (by omega) c hc
  · rw [sendChunks, sendChunksGo_getLast (buf.length + 1) buf (by omega), hk]
    simp [List.length_drop]
  · rw [sendChunks, sendChunksGo_one_flag (buf.length + 1) buf (by omega)]

/-- Witness for C3 at a 509-byte payload: two subblocks, the first with 508
bytes and no flag, the second with 1 byte and the flag. -/
theorem send_fragmentation_witness :
    (sendChunks (List.replicate 509 0)).length = 2 ∧
    ((sendChunks (List.replicate 509 0)).filter (fun c => c.2)).length = 1 := by
  have h509 : 508 < (List.replicate 509 (0 : Nat)).length := by simp
  have h := send_fragmentation (List.replicate 509 0) h509
  refine ⟨?_, h.2.2.2.1⟩
  rw [h.1]
  simp

/-! ## Truncated streams (C7) and the unreachable size check (C9) -/

/-- One or more subblocks as they sit on the wire: each a 2-byte header
followed by its payload bytes. -/
def subsWire : List (Nat × List Nat) → List Nat
  | [] => []
  | p :: ps => u16be p.1 ++ p.2 ++ subsWire ps

lemma recvLoopGo_truncated :
    ∀ pre : List (Nat × List Nat), ∀ fuel acc b0 b1 data,
      (∀ p ∈ pre, p.1 &&& 0x8000 = 0 ∧ (p.2.length : Int) = subblockSize p.1) →
      ((data.length : Int) < subblockSize (b0 * 256 + b1)) →
      (subsWire pre ++ b0 :: b1 :: data).length < fuel →
      recvLoopGo fuel acc (subsWire pre ++ b0 :: b1 :: data) =
        .error .connectionBroken := by
  intro pre
  induction pre with
  | nil =>
    intro fuel acc b0 b1 data hpre h hfuel
    rw [subsWire, List.nil_append] at hfuel ⊢
    cases fuel with
    | zero => exact absurd hfuel (by omega)
    | succ fuel =>
      rw [recvLoopGo]
      have hle := subblockSize_le (b0 * 256 + b1)
      rw [if_neg (by omega)]
      rw [if_pos h]
  | cons p ps ih =>
    intro fuel acc b0 b1 data hpre h hfuel
    obtain ⟨hflag, hsize⟩ := hpre p (by simp)
    have hps : ∀ q ∈ ps, q.1 &&& 0x8000 = 0 ∧ (q.2.length : Int) = subblockSize q.1 :=
      fun q hq => hpre q (by simp [hq])
    rw [subsWire, List.append_assoc, List.append_assoc] at hfuel ⊢
    cases fuel with
    | zero => exact absurd hfuel (by omega)
    | succ fuel =>
      rw [recvLoopGo_u16]
      have hle := subblockSize_le p.1
      rw [if_neg (by omega)]
      rw [if_neg (by rw [List.length_append]; push_cast; omega)]
      rw [show ((p.1 &&& 0x8000 != 0) : Bool) = false from by rw [hflag]; rfl]
      rw [if_neg Bool.false_ne_true]
      have htn : (subblockSize p.1).toNat = p.2.length := by
        rw [← hsize]
        exact Int.toNat_natCast _
      rw [htn, take_append_len p.2 _ p.2.length rfl, drop_append_len p.2 _ p.2.length rfl]
      apply ih fuel (acc ++ p.2) b0 b1 data hps h
      simp only [List.length_append, u16be, List.length_cons, List.length_nil] at hfuel ⊢
      omega

/-- C7: a stream that ends (delivers no further bytes) before the payload
length declared in a subblock header has been fully read — after any
number of complete earlier non-last subblocks — makes `USPBlock.receive`
fail with the connection-broken error, never returning a block with a
truncated payload.  `pre` is the list of subblocks delivered whole before
the truncated one: each has the last-flag clear (otherwise reassembly
would already have returned) and exactly its declared payload length. -/
theorem receive_truncated_connection_broken (t0 t1 : Nat)
    (pre : List (Nat × List Nat)) (b0 b1 : Nat) (data : List Nat)
    (hpre : ∀ p ∈ pre, p.1 &&& 0x8000 = 0 ∧ (p.2.length : Int) = subblockSize p.1)
    (h : (data.length : Int) < subblockSize (b0 * 256 + b1)) :
    receive (t0 :: t1 :: (subsWire pre ++ b0 :: b1 :: data)) =
      .error .connectionBroken := by
  rw [receive]
  rw [recvLoopGo_truncated pre ((subsWire pre ++ b0 :: b1 :: data).length + 1)
    [] b0 b1 data hpre h (by omega)]

/-- Witness for C7: a stream carrying one complete non-last subblock
(header 4, two payload bytes) followed by a subblock that declares 3
payload bytes but delivers none. -/
theorem receive_truncated_connection_broken_witness :
    (∀ p ∈ [((4 : Nat), [9, 9])],
      p.1 &&& 0x8000 = 0 ∧ ((p.2.length : Nat) : Int) = subblockSize p.1) ∧
    ((([] : List Nat).length : Int) < subblockSize (0 * 256 + 5)) ∧
    receive [0, 1, 0, 4, 9, 9, 0, 5] = .error .connectionBroken :=
  ⟨by decide, by decide,
    receive_truncated_connection_broken 0 1 [(4, [9, 9])] 0 5 [] (by decide) (by decide)⟩

/-- Evaluates to true exactly when a receive outcome is the
subblock-size-too-large protocol error. -/
def isSubblockTooLarge : Except Err (Nat × List Nat × List Nat) → Bool
  | .error .subblockTooLarge => true
  | _ => false

lemma recvLoopGo_ne_tooLarge :
    ∀ fuel acc stream, recvLoopGo fuel acc stream ≠ .error .subblockTooLarge := by
  intro fuel
  induction fuel with
  | zero => intro acc stream; rw [recvLoopGo]; simp
  | succ fuel ih =>
    intro acc stream
    match stream with
    | [] =>
      rw [show recvLoopGo (fuel + 1) acc [] = .error .structError from rfl]
      simp
    | [b0] =>
      rw [show recvLoopGo (fuel + 1) acc [b0] = .error .structError from rfl]
      simp
    | b0 :: b1 :: rest =>
      rw [recvLoopGo]
      have hle := subblockSize_le (b0 * 256 + b1)
      rw [if_neg (by omega)]
      split
      · simp
      · split
        · simp
        · exact ih _ _

/-- C9: the payload length `USPBlock.receive` computes from a subblock
header is `(header & 0x0FFF) - 2 <= 4093`, so its
"Subblock size is too large" branch (limit 4096) is unreachable on every
possible input stream. -/
theorem receive_subblock_too_large_unreachable :
    (∀ stream, isSubblockTooLarge (receive stream) = false) ∧
    (∀ h : Nat, subblockSize h ≤ 4093) := by
  refine ⟨?_, subblockSize_le⟩
  intro stream
  match stream with
  | [] => rfl
  | [b0] => rfl
  | b0 :: b1 :: rest =>
    rw [receive]
    match hloop : recvLoopGo (rest.length + 1) [] rest with
    | .error e =>
      have := recvLoopGo_ne_tooLarge (rest.length + 1) [] rest
      rw [hloop] at this
      cases e <;> simp_all [isSubblockTooLarge]
    | .ok (buf, rest') => simp [isSubblockTooLarge]

/-! ## String codec round trip (C2) and NUL rejection (C4) -/

lemma replace_crlf_lf_cons_ne (c : Nat) (h : c ≠ 13) (l : List Nat) :
    replace_crlf_lf (c :: l) = c :: replace_crlf_lf l := by
  match l with
  | [] => rfl
  | x :: l' =>
    rw [replace_crlf_lf, if_neg (fun hc => h hc.1)]

lemma replace_crnul_cr_cons_ne (c : Nat) (h : c ≠ 13) (l : List Nat) :
    replace_crnul_cr (c :: l) = c :: replace_crnul_cr l := by
  match l with
  | [] => rfl
  | x :: l' =>
    rw [replace_crnul_cr, if_neg (fun hc => h hc.1)]

lemma decode_encode (s : List Nat) :
    replace_crnul_cr (replace_crlf_lf (replace_lf_crlf (replace_cr_crnul s))) = s := by
  induction s with
  | nil => rfl
  | cons c s ih =>
    by_cases h13 : c = 13
    · subst h13
      rw [replace_cr_crnul, if_pos rfl]
      rw [replace_lf_crlf, if_neg (by omega)]
      rw [replace_lf_crlf, if_neg (by omega)]
      rw [replace_crlf_lf, if_neg (by omega)]
      rw [replace_crlf_lf_cons_ne 0 (by omega)]
      rw [replace_crnul_cr, if_pos ⟨rfl, rfl⟩]
      rw [ih]
    · by_cases h10 : c = 10
      · subst h10
        rw [replace_cr_crnul, if_neg (by omega)]
        rw [replace_lf_crlf, if_pos rfl]
        rw [replace_crlf_lf, if_pos ⟨rfl, rfl⟩]
        rw [replace_crnul_cr_cons_ne 10 (by omega)]
        rw [ih]
      · rw [replace_cr_crnul, if_neg h13]
        rw [replace_lf_crlf, if_neg h10]
        rw [replace_crlf_lf_cons_ne c h13]
        rw [replace_crnul_cr_cons_ne c h13]
        rw [ih]

lemma decodeString_encodeString (s : List Nat) :
    decodeString (encodeString s) = s :=
  decode_encode s

lemma put_string_eval (s : List Nat) (h0 : 0 ∉ s)
    (h1 : (encodeString s).length < 65536) :
    put_string s [] =
      (u16be (encodeString s).length ++
        (encodeString s ++
          (if (encodeString s).length % 2 = 1 then [0] else [])), none) := by
  unfold put_string put_cardinal
  rw [if_neg h0]
  dsimp only
  rw [if_pos h1]
  dsimp only
  split <;> simp [List.append_assoc]

lemma read_string_exact (enc pad : List Nat)
    (hpad : pad = if enc.length % 2 = 1 then [0] else []) :
    read_string (u16be enc.length ++ (enc ++ pad)) =
      .ok (decodeString enc, []) := by
  unfold read_string read_cardinal
  rw [show u16be enc.length ++ (enc ++ pad) =
    enc.length / 256 :: enc.length % 256 :: (enc ++ pad) from by simp [u16be]]
  dsimp only
  rw [show enc.length / 256 * 256 + enc.length % 256 = enc.length from by omega]
  rw [if_neg (by rw [List.length_append]; omega)]
  rw [take_append_len enc pad enc.length rfl]
  by_cases hodd : enc.length % 2 = 1
  · rw [if_pos hodd]
    rw [show enc.length + 1 = enc.length + 1 from rfl, ← List.drop_drop]
    rw [drop_append_len enc pad enc.length rfl, hpad, if_pos hodd]
    rfl
  · rw [if_neg hodd]
    rw [drop_append_len enc pad enc.length rfl, hpad, if_neg hodd]

/-- C2 (amended): for every string with no NUL byte whose escaped encoding
fits the 16-bit cardinal length prefix, writing it with
`USPBlock.put_string` into an empty buffer and reading it back with
`USPBlock.read_string` raises nothing, consumes the whole buffer and
returns the original string unchanged — including strings containing bare
carriage-returns, bare line-feeds and carriage-return + line-feed pairs. -/
theorem put_read_string_round_trip (s : List Nat) (h0 : 0 ∉ s)
    (h1 : (encodeString s).length < 65536) :
    (put_string s []).2 = none ∧
    read_string (put_string s []).1 = .ok (s, []) := by
  rw [put_string_eval s h0 h1]
  refine ⟨rfl, ?_⟩
  dsimp only
  rw [read_string_exact (encodeString s)
    (if (encodeString s).length % 2 = 1 then [0] else []) rfl]
  rw [decodeString_encodeString]

/-- Witness for C2 (amended), on a string containing a bare CR, a bare LF
and a CR LF pair. -/
theorem put_read_string_round_trip_witness :
    (0 ∉ [65, 13, 66, 10, 67, 13, 10]) ∧
    (encodeString [65, 13, 66, 10, 67, 13, 10]).length < 65536 ∧
    ((put_string [65, 13, 66, 10, 67, 13, 10] []).2 = none ∧
      read_string (put_string [65, 13, 66, 10, 67, 13, 10] []).1 =
        .ok ([65, 13, 66, 10, 67, 13, 10], [])) :=
  ⟨by decide, by decide,
    put_read_string_round_trip [65, 13, 66, 10, 67, 13, 10] (by decide) (by decide)⟩

lemma replace_cr_crnul_id (l : List Nat) (h : 13 ∉ l) :
    replace_cr_crnul l = l := by
  induction l with
  | nil => rfl
  | cons c rest ih =>
    rw [replace_cr_crnul, if_neg (by simp at h; omega)]
    rw [ih (by simp at h; exact h.2)]

lemma replace_lf_crlf_id (l : List Nat) (h : 10 ∉ l) :
    replace_lf_crlf l = l := by
  induction l with
  | nil => rfl
  | cons c rest ih =>
    rw [replace_lf_crlf, if_neg (by simp at h; omega)]
    rw [ih (by simp at h; exact h.2)]

lemma put_string_too_long (s : List Nat) (h0 : 0 ∉ s)
    (h1 : ¬ (encodeString s).length < 65536) :
    put_string s [] = ([], some .structError) := by
  unfold put_string put_cardinal
  rw [if_neg h0]
  dsimp only
  rw [if_neg h1]

lemma encodeString_all_a :
    encodeString (List.replicate 65536 97) = List.replicate 65536 97 := by
  unfold encodeString
  rw [replace_cr_crnul_id _ (by simp only [List.mem_replicate]; omega),
    replace_lf_crlf_id _ (by simp only [List.mem_replicate]; omega)]

/-- Counterexample to C2 as stated: for the NUL-free string of 65536 'a'
bytes the escaped encoding is 65536 bytes long, `put_cardinal` of that
length raises struct.error ('H' holds at most 65535), so `put_string`
fails and no round trip happens. -/
theorem put_read_string_counterexample :
    ¬ ((put_string (List.replicate 65536 97) []).2 = none ∧
       read_string (put_string (List.replicate 65536 97) []).1 =
         .ok (List.replicate 65536 97, [])) := by
  have hps : put_string (List.replicate 65536 97) [] = ([], some .structError) := by
    apply put_string_too_long
    · simp only [List.mem_replicate]
      omega
    · rw [encodeString_all_a, List.length_replicate]
      omega
  rw [hps]
  intro hc
  exact Option.noConfusion hc.1

/-- C4 (what the code actually does): `put_string` on a string containing
a NUL byte fails before appending anything, leaving the buffer unchanged —
but the exception is a NameError (the raise names `USPError`, a class
defined nowhere in the module), not the intended invalid-input USP error. -/
theorem put_string_nul_name_error :
    put_string [0] [1, 2, 3] = ([1, 2, 3], some .nameError) ∧
    put_string [65, 0, 66] [7] = ([7], some .nameError) :=
  ⟨rfl, rfl⟩

/-! ## Request/reply discipline (C5) and in-place mutation (C10) -/

lemma request_block_eq (PB RT : Nat) (b : USPBlock) (s : List Nat) :
    (request PB RT b s).block = { b with block_type := b.block_type + PB } := by
  unfold request
  dsimp only
  split
  · rfl
  · split
    · rfl
    · split <;> rfl

lemma request_sent_of_ok (PB RT : Nat) (b : USPBlock) (s w : List Nat)
    (h : send (b.block_type + PB) b.buffer = .ok w) :
    (request PB RT b s).sent = w := by
  unfold request
  dsimp only
  rw [h]
  dsimp only
  split
  · rfl
  · split <;> rfl

/-- C5: `request` sends the block with its type increased by the
procedure-call offset, and — for any reply the peer produces, whatever its
payload — raises the transport-level protocol error exactly when the
reply's block type differs from the reply-type constant; on a matching
type it returns the reply block. -/
theorem request_reply_discipline (PB RT bt rt : Nat) (buf rbuf rw : List Nat)
    (h1 : bt + PB < 65536) (h2 : send rt rbuf = .ok rw) :
    send (bt + PB) buf = .ok (request PB RT ⟨bt, buf⟩ rw).sent ∧
    ((request PB RT ⟨bt, buf⟩ rw).result = .error .transportLevel ↔ rt ≠ RT) ∧
    (rt = RT → (request PB RT ⟨bt, buf⟩ rw).result = .ok ⟨rt, rbuf⟩) := by
  have hsend : send (bt + PB) buf =
      .ok (u16be (bt + PB) ++ chunksWire (sendChunks buf)) := by
    unfold send pack16
    rw [if_pos h1]
  have hrecv := receive_send rt rbuf rw h2
  have hreq : request PB RT ⟨bt, buf⟩ rw =
      ⟨⟨bt + PB, buf⟩, u16be (bt + PB) ++ chunksWire (sendChunks buf),
        if rt ≠ RT then .error .transportLevel else .ok ⟨rt, rbuf⟩⟩ := by
    unfold request
    dsimp only
    rw [hsend]
    dsimp only
    rw [hrecv]
    dsimp only
    split <;> rfl
  rw [hreq]
  refine ⟨hsend, ?_, ?_⟩
  · by_cases h : rt = RT
    · simp [h]
    · simp [h]
  · intro h
    simp [h]

/-- Witness for C5 with offset 400, reply type 1 and a matching reply. -/
theorem request_reply_discipline_witness :
    send (10 + 400) [1, 2] = .ok (request 400 1 ⟨10, [1, 2]⟩ [0, 1, 128, 3, 9]).sent ∧
    ((request 400 1 ⟨10, [1, 2]⟩ [0, 1, 128, 3, 9]).result = .error .transportLevel ↔
      (1 : Nat) ≠ 1) ∧
    ((1 : Nat) = 1 →
      (request 400 1 ⟨10, [1, 2]⟩ [0, 1, 128, 3, 9]).result = .ok ⟨1, [9]⟩) :=
  request_reply_discipline 400 1 10 1 [1, 2] [9] [0, 1, 128, 3, 9] (by decide) rfl

/-- C10: `request` mutates its argument in place — after the call, whether
it returned or raised past the offset step, the block's type is its old
value plus the offset, the payload is untouched, and passing the same
block to `request` a second time sends it with the offset applied twice. -/
theorem request_offset_mutation (PB RT : Nat) (b : USPBlock) (s s' w : List Nat)
    (h : send (b.block_type + 2 * PB) b.buffer = .ok w) :
    (request PB RT b s).block = { b with block_type := b.block_type + PB } ∧
    (request PB RT (request PB RT b s).block s').block.block_type =
      b.block_type + 2 * PB ∧
    (request PB RT (request PB RT b s).block s').sent = w := by
  have hb := request_block_eq PB RT b s
  refine ⟨hb, ?_, ?_⟩
  · rw [request_block_eq, hb]
    dsimp only
    omega
  · apply request_sent_of_ok
    rw [hb]
    dsimp only
    rw [show b.block_type + PB + PB = b.block_type + 2 * PB from by omega]
    exact h

/-- Witness for C10: type 5 with offset 400 twice becomes 805, sent as the
header bytes 3, 37. -/
theorem request_offset_mutation_witness :
    (request 400 1 ⟨5, [1]⟩ [] ).block = ⟨5 + 400, [1]⟩ ∧
    (request 400 1 (request 400 1 ⟨5, [1]⟩ []).block []).block.block_type =
      5 + 2 * 400 ∧
    (request 400 1 (request 400 1 ⟨5, [1]⟩ []).block []).sent =
      [3, 37, 128, 3, 1] :=
  request_offset_mutation 400 1 ⟨5, [1]⟩ [] [] [3, 37, 128, 3, 1] rfl

/-! ## Authentication handshake block (C8) -/

lemma flatMap_u16be_length (tok : List Nat) :
    (tok.flatMap u16be).length = 2 * tok.length := by
  induction tok with
  | nil => simp
  | cons b rest ih =>
    simp [u16be, ih]
    omega

lemma put_cardinal_list_ok :
    ∀ tok buf, (∀ b ∈ tok, b < 65536) →
      put_cardinal_list tok buf = (buf ++ tok.flatMap u16be, none) := by
  intro tok
  induction tok with
  | nil => intro buf h; simp [put_cardinal_list]
  | cons b rest ih =>
    intro buf h
    rw [put_cardinal_list]
    unfold put_cardinal
    rw [if_pos (h b (by simp))]
    dsimp only
    rw [ih (buf ++ u16be b) (fun x hx => h x (by simp [hx]))]
    simp [List.append_assoc]

/-- C8: the authentication block built on connect carries the ticket block
type; with authentication disabled its payload is exactly one cardinal
zero; with authentication enabled and an n-byte token it is the cardinal n
followed by one 2-byte cardinal per token byte in order, 2 + 2 * n payload
bytes in all. -/
theorem connect_auth_block (KT : Nat) (tok : List Nat)
    (h1 : tok.length < 65536) (h2 : ∀ b ∈ tok, b < 256) :
    connectAuthBlock KT false tok = (⟨KT, u16be 0⟩, none) ∧
    connectAuthBlock KT true tok =
      (⟨KT, u16be tok.length ++ tok.flatMap u16be⟩, none) ∧
    (connectAuthBlock KT true tok).1.buffer.length = 2 + 2 * tok.length := by
  have hfalse : connectAuthBlock KT false tok = (⟨KT, u16be 0⟩, none) := rfl
  have htrue : connectAuthBlock KT true tok =
      (⟨KT, u16be tok.length ++ tok.flatMap u16be⟩, none) := by
    unfold connectAuthBlock
    rw [if_pos rfl]
    unfold put_cardinal
    rw [if_pos h1]
    dsimp only
    rw [put_cardinal_list_ok tok ([] ++ u16be tok.length)
      (fun b hb => lt_trans (h2 b hb) (by omega))]
    simp
  refine ⟨hfalse, htrue, ?_⟩
  rw [htrue]
  dsimp only
  rw [List.length_append, flatMap_u16be_length,
    show (u16be tok.length).length = 2 from rfl]

/-- Witness for C8 with ticket type 7 and the 2-byte token [200, 1]. -/
theorem connect_auth_block_witness :
    connectAuthBlock 7 false [200, 1] = (⟨7, u16be 0⟩, none) ∧
    connectAuthBlock 7 true [200, 1] =
      (⟨7, u16be 2 ++ [200, 1].flatMap u16be⟩, none) ∧
    (connectAuthBlock 7 true [200, 1]).1.buffer.length = 2 + 2 * 2 :=
  connect_auth_block 7 [200, 1] (by decide) (by decide)

/-! ## Reconnect-on-timeout policy (C6) -/

/-- C6: the autoreconnects decorator returns a first-try success directly
with no reconnect; on a timeout it performs exactly one connect (which
replaces the stream and repeats the auth handshake) and exactly one
retry, whose outcome — including a second timeout, which thus propagates —
is returned as is; any non-timeout error propagates immediately with no
reconnect and no retry. -/
theorem autoreconnects_policy {α : Type} (f : Nat → Except ClientErr α)
    (c : Except ClientErr Unit) :
    (∀ a, f 0 = .ok a → autoreconnects f c = (.ok a, 0, 1)) ∧
    (f 0 = .error .timeout → c = .ok () → autoreconnects f c = (f 1, 1, 2)) ∧
    (f 0 = .error .timeout → f 1 = .error .timeout → c = .ok () →
      (autoreconnects f c).1 = .error .timeout) ∧
    (∀ e, f 0 = .error e → e ≠ .timeout → autoreconnects f c = (.error e, 0, 1)) := by
  refine ⟨?_, ?_, ?_, ?_⟩
  · intro a h
    unfold autoreconnects
    rw [h]
  · intro h hc
    unfold autoreconnects
    rw [h, hc]
  · intro h h1 hc
    unfold autoreconnects
    rw [h, hc]
    dsimp only
    exact h1
  · intro e h hne
    unfold autoreconnects
    rw [h]
    cases e with
    | timeout => exact absurd rfl hne
    | malformedData => rfl
    | protocolMismatch => rfl
    | domainError code => rfl

/-- Witness for C6: an operation that times out once and succeeds on the
retry after the single reconnect. -/
theorem autoreconnects_policy_witness :
    (fun n => if n = 0 then (Except.error ClientErr.timeout : Except ClientErr Nat)
      else .ok 42) 0 = .error .timeout ∧
    autoreconnects
      (fun n => if n = 0 then (Except.error ClientErr.timeout : Except ClientErr Nat)
        else .ok 42) (.ok ()) =
      ((fun n => if n = 0 then (Except.error ClientErr.timeout : Except ClientErr Nat)
        else .ok 42) 1, 1, 2) :=
  ⟨rfl,
    (autoreconnects_policy
      (fun n => if n = 0 then (Except.error ClientErr.timeout : Except ClientErr Nat)
        else .ok 42) (.ok ())).2.1 rfl rfl⟩

end Discuss
